import Mathlib

/-!
Shallow embedding of the core of the cfn-deploy / cloudformatious CloudFormation
deployment orchestrator (src/events.rs, src/stack_status.rs, src/change_set.rs,
src/lib.rs), together with theorems settling the spec claims.

Modelling conventions:
- Machine-facing strings (statuses, ids, reasons) are Lean `String`s.
- Timestamps are `Nat` (milliseconds since epoch).  The source compares RFC 3339
  strings rendered at millisecond precision (`to_rfc3339_opts(Millis, true)`),
  whose lexicographic order agrees with chronological order for that fixed
  format, so `Nat` comparison is a faithful model of the source comparison.
- Fallible paths (Rust `Result`, panicking `expect`) are modelled with
  `Option` / `Except`: `none` models a panic on a violated service contract.
- The AWS service is modelled as an environment of (successful) responses;
  network failures abort every stream/driver via the `?` operator in the source
  and are not needed by any claim.
-/

namespace CfnDeploy

/-- Status enum from src/events.rs.  The source enum has exactly these ten
variants: CloudFormation UPDATE_* statuses are absent. -/
inductive ResourceStatus
  | reviewInProgress
  | createInProgress
  | createFailed
  | createComplete
  | deleteInProgress
  | deleteFailed
  | deleteComplete
  | rollbackInProgress
  | rollbackFailed
  | rollbackComplete
deriving DecidableEq, Repr

/-- Model of `ResourceStatus::is_terminal` (src/events.rs). -/
def ResourceStatus.is_terminal : ResourceStatus → Bool
  | .createFailed
  | .createComplete
  | .deleteFailed
  | .deleteComplete
  | .rollbackFailed
  | .rollbackComplete => true
  | .reviewInProgress
  | .createInProgress
  | .deleteInProgress
  | .rollbackInProgress => false

/-- Model of `ResourceStatus::is_error` (src/events.rs). -/
def ResourceStatus.is_error : ResourceStatus → Bool
  | .createFailed
  | .deleteFailed
  | .rollbackFailed
  | .rollbackComplete => true
  | .reviewInProgress
  | .createInProgress
  | .createComplete
  | .deleteInProgress
  | .deleteComplete
  | .rollbackInProgress => false

/-- Model of `impl fmt::Display for ResourceStatus` (src/events.rs). -/
def ResourceStatus.toStr : ResourceStatus → String
  | .reviewInProgress => "REVIEW_IN_PROGRESS"
  | .createInProgress => "CREATE_IN_PROGRESS"
  | .createFailed => "CREATE_FAILED"
  | .createComplete => "CREATE_COMPLETE"
  | .deleteInProgress => "DELETE_IN_PROGRESS"
  | .deleteFailed => "DELETE_FAILED"
  | .deleteComplete => "DELETE_COMPLETE"
  | .rollbackInProgress => "ROLLBACK_IN_PROGRESS"
  | .rollbackFailed => "ROLLBACK_FAILED"
  | .rollbackComplete => "ROLLBACK_COMPLETE"

/-- Model of `impl FromStr for ResourceStatus` (src/events.rs); `none` models
the `Err(status.to_string())` branch for unrecognised strings. -/
def ResourceStatus.fromStr : String → Option ResourceStatus
  | "REVIEW_IN_PROGRESS" => some .reviewInProgress
  | "CREATE_IN_PROGRESS" => some .createInProgress
  | "CREATE_FAILED" => some .createFailed
  | "CREATE_COMPLETE" => some .createComplete
  | "DELETE_IN_PROGRESS" => some .deleteInProgress
  | "DELETE_FAILED" => some .deleteFailed
  | "DELETE_COMPLETE" => some .deleteComplete
  | "ROLLBACK_IN_PROGRESS" => some .rollbackInProgress
  | "ROLLBACK_FAILED" => some .rollbackFailed
  | "ROLLBACK_COMPLETE" => some .rollbackComplete
  | _ => none

/-- Wire-level stack event as delivered by `rusoto_cloudformation::StackEvent`:
every field the source unwraps with `expect` is an `Option`. -/
structure NativeStackEvent where
  physical_resource_id : Option String
  logical_resource_id : Option String
  resource_type : Option String
  resource_status : Option String
  resource_status_reason : Option String
  timestamp : Nat
deriving DecidableEq, Repr

/-- Converted stack event, `StackEvent` in src/events.rs. -/
structure StackEvent where
  physical_resource_id : Option String
  logical_resource_id : String
  resource_type : String
  resource_status : ResourceStatus
  resource_status_reason : Option String
  timestamp : Nat
deriving DecidableEq, Repr

/-- Model of `StackEvent::from_native` (src/events.rs).  `none` models a panic
(`expect` on a missing field or an unknown status).  An empty
`physical_resource_id` is normalised to `none`, as in the source match. -/
def StackEvent.from_native (event : NativeStackEvent) : Option StackEvent := do
  let pid ← event.physical_resource_id
  let lid ← event.logical_resource_id
  let rty ← event.resource_type
  let rstatus ← event.resource_status
  let status ← ResourceStatus.fromStr rstatus
  some
    { physical_resource_id := if pid.isEmpty then none else some pid
      logical_resource_id := lid
      resource_type := rty
      resource_status := status
      resource_status_reason := event.resource_status_reason
      timestamp := event.timestamp }

/-- The events of a response retained by the high-water filter: those with
timestamp strictly greater than `since` (the source filter
`event.timestamp > since`). -/
def retained (since : Nat) (response : List StackEvent) : List StackEvent :=
  response.filter fun event => decide (since < event.timestamp)

/-- One iteration of the polling loop in `stack_events_since` (src/events.rs):
filter the newest-first response down to events strictly newer than the
high-water mark `since`, inspect the newest retained event for the
terminal-for-stack condition, advance the high-water mark to its timestamp, and
yield the retained events in reverse (ascending) order.  Returns
(yielded batch, new high-water mark, loop-done flag). -/
def pollOnce (stack_id : String) (since : Nat) (response : List StackEvent) :
    List StackEvent × Nat × Bool :=
  let events := retained since response
  match events.head? with
  | none => ([], since, false)
  | some last_event
      => (events.reverse,
          last_event.timestamp,
          decide (last_event.physical_resource_id = some stack_id)
            && last_event.resource_status.is_terminal)

/-- Model of the loop of `stack_events_since` (src/events.rs) run against a
list of successive `DescribeStackEvents` responses (each newest-first).
Returns the concatenated yielded events and the number of
`DescribeStackEvents` polls issued.  The response list is the available prefix
of the service's answers; the source loop would keep polling past it. -/
def stack_events_since (stack_id : String) : Nat → List (List StackEvent) →
    List StackEvent × Nat
  | _, [] => ([], 0)
  | since, response :: rest =>
    let polled := pollOnce stack_id since response
    if polled.2.2 then
      (polled.1, 1)
    else
      let next := stack_events_since stack_id polled.2.1 rest
      (polled.1 ++ next.1, next.2 + 1)

/-- Model of `last_stack_event` (src/events.rs): the head of the newest-first
`DescribeStackEvents` response, if any. -/
def last_stack_event (response : List StackEvent) : Option StackEvent :=
  response.head?

/-- Result of the initial `DescribeStacks` call as consumed by
`StackStatus::try_from_result` (src/stack_status.rs): the first stack's status
and id on success, a 400 `RusotoError::Unknown` response, or any other error. -/
inductive DescribeStacksResult
  | ok (stack_status : String) (stack_id : String)
  | err400
  | errOther
deriving DecidableEq, Repr

/-- Stack status classification from src/stack_status.rs. -/
inductive StackStatus
  | notFound
  | existsErr (stack_id : String)
  | existsOk
deriving DecidableEq, Repr

/-- Library error type as used by src/change_set.rs and src/stack_status.rs:
`cloudFormationApi` stands for a wrapped SDK error. -/
inductive Err
  | cloudFormationApi
  | createChangeSetFailed (status : String) (status_reason : Option String)
  | executeChangeSetFailed (stack_error_event : StackEvent)
      (resource_error_events : List StackEvent)
deriving DecidableEq, Repr

/-- Model of `StackStatus::try_from_result` (src/stack_status.rs); the second
condition models the `"DELETE_FAILED" | "ROLLBACK_FAILED" | "ROLLBACK_COMPLETE"`
alternative pattern of the source match. -/
def StackStatus.try_from_result (result : DescribeStacksResult) :
    Except Err StackStatus :=
  match result with
  | .ok stack_status stack_id =>
    if stack_status = "REVIEW_IN_PROGRESS" then .ok .notFound
    else if stack_status = "DELETE_FAILED" ∨ stack_status = "ROLLBACK_FAILED"
        ∨ stack_status = "ROLLBACK_COMPLETE" then
      .ok (.existsErr stack_id)
    else .ok .existsOk
  | .err400 => .ok .notFound
  | .errOther => .error .cloudFormationApi

instance {ε α : Type} [DecidableEq ε] [DecidableEq α] :
    DecidableEq (Except ε α) := fun a b =>
  match a, b with
  | .error x, .error y =>
    if h : x = y then isTrue (congrArg Except.error h)
    else isFalse fun hc => h (Except.error.inj hc)
  | .ok x, .ok y =>
    if h : x = y then isTrue (congrArg Except.ok h)
    else isFalse fun hc => h (Except.ok.inj hc)
  | .error _, .ok _ => isFalse fun hc => Except.noConfusion hc
  | .ok _, .error _ => isFalse fun hc => Except.noConfusion hc

/-- Resource action enum from src/change_set.rs. -/
inductive ResourceAction
  | add
  | modify
  | remove
deriving DecidableEq, Repr

/-- A single change in a change set (src/change_set.rs). -/
structure ResourceChange where
  action : ResourceAction
  logical_resource_id : String
  physical_resource_id : Option String
  resource_type : String
deriving DecidableEq, Repr

/-- Aggregate effect of a change set (src/change_set.rs). -/
inductive Effect
  | skip
  | create (id : String)
  | update (id : String)
  | delete
deriving DecidableEq, Repr

/-- Change set record from src/change_set.rs. -/
structure ChangeSet where
  effect : Effect
  stack_name : String
  stack_id : String
  resource_changes : List ResourceChange
deriving DecidableEq, Repr

/-- One resource row of a `DescribeStackResources` response (src/change_set.rs,
`for_delete`). -/
structure StackResource where
  logical_resource_id : String
  physical_resource_id : Option String
  resource_type : String
deriving DecidableEq, Repr

/-- The `ChangeSetType` passed to `create_change_set` (src/change_set.rs). -/
inductive ChangeSetType
  | createType
  | updateType
deriving DecidableEq, Repr

/-- Bool-valued substring containment, modelling Rust `str::contains`. -/
def strContains (hay pat : String) : Bool :=
  decide (List.IsInfix pat.data hay.data)

/-- The settled observations of one `create_change_set` call
(src/change_set.rs): the ids from the `CreateChangeSet` output and the first
`DescribeChangeSet` response whose status is outside
CREATE_PENDING / CREATE_IN_PROGRESS (the loop polls until then). -/
structure ChangeSetOutcome where
  change_set_id : String
  stack_id : String
  status : String
  execution_status : Option String
  status_reason : Option String
  changes : List ResourceChange
deriving DecidableEq, Repr

/-- Model of `create_change_set` (src/change_set.rs) after its polling loop has
settled on `outcome`: if the execution status is not AVAILABLE, a FAILED status
whose reason contains the fixed no-changes sentence yields a `skip` change set
with no changes; any other non-AVAILABLE outcome is a `CreateChangeSetFailed`
error; otherwise the change set is populated with the observed changes and a
Create/Update effect carrying the change set id. -/
def create_change_set (stack_name : String) (outcome : ChangeSetOutcome)
    (change_set_type : ChangeSetType) : Except Err ChangeSet :=
  if outcome.execution_status ≠ some "AVAILABLE" then
    if outcome.status = "FAILED"
        && strContains (outcome.status_reason.getD "")
          "The submitted information didn\x27t contain changes." then
      .ok
        { effect := .skip
          stack_id := outcome.stack_id
          stack_name := stack_name
          resource_changes := [] }
    else
      .error (.createChangeSetFailed outcome.status outcome.status_reason)
  else
    .ok
      { effect :=
          match change_set_type with
          | .createType => .create outcome.change_set_id
          | .updateType => .update outcome.change_set_id
        stack_id := outcome.stack_id
        stack_name := stack_name
        resource_changes := outcome.changes }

/-- Model of `for_delete` (src/change_set.rs): synthesise a deletion change set
from a `DescribeStackResources` response, marking every resource as removed. -/
def for_delete (resources : List StackResource) (stack_id stack_name : String) :
    ChangeSet :=
  { effect := .delete
    stack_id := stack_id
    stack_name := stack_name
    resource_changes := resources.map fun resource =>
      { action := .remove
        logical_resource_id := resource.logical_resource_id
        physical_resource_id := resource.physical_resource_id
        resource_type := resource.resource_type } }

/-- The CloudFormation API calls the model records in traces. -/
inductive ApiCall
  | describeStacks (stack_name : String)
  | describeStackEvents (stack_name : String)
  | describeStackResources (stack_name : String)
  | createChangeSet (change_set_type : ChangeSetType) (stack_name : String)
  | describeChangeSet (id : String)
  | executeChangeSet (id : String)
  | deleteStack (stack_name : String)
deriving DecidableEq, Repr

/-- One observable step of the deployment: an API call, a change set or event
yielded to the consumer, or the `on_complete` oneshot firing. -/
inductive Step
  | call (api : ApiCall)
  | yieldChangeSet (change_set : ChangeSet)
  | yieldEvent (event : StackEvent)
  | sendComplete
deriving DecidableEq, Repr

/-- Steps of the polling loop of `stack_events_since` inside `execute`: one
`DescribeStackEvents` call per iteration followed by the yielded batch. -/
def streamPolls (stack_id : String) : Nat → List (List StackEvent) → List Step
  | _, [] => []
  | since, response :: rest =>
    let polled := pollOnce stack_id since response
    Step.call (.describeStackEvents stack_id) :: polled.1.map .yieldEvent ++
      (if polled.2.2 then [] else streamPolls stack_id polled.2.1 rest)

/-- The events yielded in a list of steps, in order. -/
def yieldedEvents (steps : List Step) : List StackEvent :=
  steps.filterMap fun step =>
    match step with
    | .yieldEvent event => some event
    | _ => none

/-- The change sets yielded in a list of steps, in order. -/
def yieldedChangeSets (steps : List Step) : List ChangeSet :=
  steps.filterMap fun step =>
    match step with
    | .yieldChangeSet change_set => some change_set
    | _ => none

/-- One step of the error-partition loop of `execute` (src/change_set.rs). -/
def accumStep (stack_id : String) (acc : Option StackEvent × List StackEvent)
    (event : StackEvent) : Option StackEvent × List StackEvent :=
  if event.resource_status.is_error then
    if event.physical_resource_id = some stack_id then
      (some event, acc.2)
    else
      (acc.1, acc.2 ++ [event])
  else
    acc

/-- The error-partition loop of `execute` (src/change_set.rs): fold over the
streamed events, keeping the latest stack-level error event (physical id equal
to the stack id) and appending every other error event to the resource-error
list. -/
def accumErrors (stack_id : String) (events : List StackEvent) :
    Option StackEvent × List StackEvent :=
  events.foldl (accumStep stack_id) (none, [])

/-- The stack-level error events of a stream: error status and physical id
equal to the stack id. -/
def stackErrors (stack_id : String) (events : List StackEvent) :
    List StackEvent :=
  events.filter fun e =>
    e.resource_status.is_error && decide (e.physical_resource_id = some stack_id)

/-- The resource-level error events of a stream: error status and physical id
different from the stack id. -/
def resourceErrors (stack_id : String) (events : List StackEvent) :
    List StackEvent :=
  events.filter fun e =>
    e.resource_status.is_error &&
      !(decide (e.physical_resource_id = some stack_id))

/-- Environment for one `execute` call: the time captured by `Utc::now()`, the
`DescribeStackEvents` response used by the `skip` branch, and the successive
poll responses consumed by `stack_events_since`. -/
structure ExecEnv where
  now : Nat
  last_event_response : List StackEvent
  poll_responses : List (List StackEvent)
deriving DecidableEq, Repr

/-- Model of `execute` (src/change_set.rs).  Returns the observable steps and
the stream's final result.  For `skip`, the prior most-recent stack event is
fetched and yielded and the stream returns early (before the `on_complete`
send).  Otherwise the effect's API call is issued, the events of
`stack_events_since` are yielded while being partitioned by `accumErrors`, the
stream fails iff a stack error event was recorded, and on success the
`on_complete` oneshot (when present) fires as the very last step. -/
def execute (env : ExecEnv) (change_set : ChangeSet) (has_sender : Bool) :
    List Step × Except Err Unit :=
  match change_set.effect with
  | .skip =>
    (Step.call (.describeStackEvents change_set.stack_id) ::
        (match last_stack_event env.last_event_response with
         | some event => [Step.yieldEvent event]
         | none => []),
     .ok ())
  | .create id => execRun env change_set (.call (.executeChangeSet id)) has_sender
  | .update id => execRun env change_set (.call (.executeChangeSet id)) has_sender
  | .delete =>
    execRun env change_set (.call (.deleteStack change_set.stack_id)) has_sender
where
  /-- Common tail of the non-skip branches of `execute`. -/
  execRun (env : ExecEnv) (change_set : ChangeSet) (first : Step)
      (has_sender : Bool) : List Step × Except Err Unit :=
    let stream := streamPolls change_set.stack_id env.now env.poll_responses
    let errors := accumErrors change_set.stack_id (yieldedEvents stream)
    match errors.1 with
    | some event =>
      (first :: stream, .error (.executeChangeSetFailed event errors.2))
    | none =>
      (first :: stream ++ (if has_sender then [Step.sendComplete] else []),
       .ok ())

/-- Consumer behaviour for one yielded change set: `none` abandons it without
driving it; `some n` drives its execution for at most `n` steps (at least its
full length means driving it to completion, by awaiting it or exhausting its
event stream). -/
def runChangeSet (env : ExecEnv) (change_set : ChangeSet) (has_sender : Bool)
    (drive : Option Nat) : List Step × Bool :=
  match drive with
  | none => ([], false)
  | some n =>
    let steps := (execute env change_set has_sender).1.take n
    (steps, steps.any fun step => decide (step = Step.sendComplete))

/-- Input struct for deploy (src/lib.rs). -/
structure DeployInput where
  stack_name : String
  parameters : List (String × String)
  template_body : String
deriving DecidableEq, Repr

/-- Environment of service responses for one deploy invocation. -/
structure DeployEnv where
  describe_stacks : DescribeStacksResult
  delete_resources : List StackResource
  delete_exec : ExecEnv
  create_outcome : ChangeSetOutcome
  create_exec : ExecEnv
  update_outcome : ChangeSetOutcome
  update_exec : ExecEnv
deriving DecidableEq, Repr

/-- Steps of `create_stack` / `update_stack` followed by the consumer driving
the resulting change set: the `CreateChangeSet` and (settled) `DescribeChangeSet`
calls, then, when creation succeeds, the yielded change set and its execution
steps.  On a `CreateChangeSetFailed` error the generator stops. -/
def runCreatePath (input : DeployInput) (outcome : ChangeSetOutcome)
    (exec_env : ExecEnv) (change_set_type : ChangeSetType) (drive : Option Nat) :
    List Step :=
  let calls := [Step.call (.createChangeSet change_set_type input.stack_name),
                Step.call (.describeChangeSet outcome.change_set_id)]
  match create_change_set input.stack_name outcome change_set_type with
  | .error _ => calls
  | .ok change_set =>
    calls ++ Step.yieldChangeSet change_set ::
      (runChangeSet exec_env change_set false drive).1

/-- Model of `CloudFormationExt::deploy` (src/lib.rs) as an observable trace,
with the consumer's drive decisions for the first and (possible) second yielded
change set.  NotFound takes the create path; ExistsOk the update path;
ExistsErr yields a synthesised delete change set and, only if its execution
stream was driven to completion and fired the `on_complete` oneshot (observed
by `rx.try_recv()`), follows with the create path. -/
def deploy (input : DeployInput) (env : DeployEnv)
    (drive1 drive2 : Option Nat) : List Step :=
  Step.call (.describeStacks input.stack_name) ::
    match StackStatus.try_from_result env.describe_stacks with
    | .error _ => []
    | .ok .notFound =>
      runCreatePath input env.create_outcome env.create_exec .createType drive1
    | .ok .existsOk =>
      runCreatePath input env.update_outcome env.update_exec .updateType drive1
    | .ok (.existsErr stack_id) =>
      let change_set := for_delete env.delete_resources stack_id input.stack_name
      let run := runChangeSet env.delete_exec change_set true drive1
      Step.call (.describeStackResources stack_id) ::
        Step.yieldChangeSet change_set :: run.1 ++
          (if run.2 then
            runCreatePath input env.create_outcome env.create_exec .createType
              drive2
          else [])

/-- A `DescribeStackEvents` response is returned newest-first: every earlier
element has a timestamp at least that of every later element. -/
def DescSorted (response : List StackEvent) : Prop :=
  List.Pairwise (fun a b => b.timestamp ≤ a.timestamp) response

instance (response : List StackEvent) : Decidable (DescSorted response) :=
  inferInstanceAs (Decidable (List.Pairwise _ response))

/-- The high-water mark after the polling loop has processed the given
responses (ignoring the done flag). -/
def exitSince (stack_id : String) : Nat → List (List StackEvent) → Nat
  | since, [] => since
  | since, response :: rest =>
    exitSince stack_id (pollOnce stack_id since response).2.1 rest

/-- True when none of the given polls observes the terminal-for-stack
condition, so the loop keeps running past them. -/
def noneDone (stack_id : String) : Nat → List (List StackEvent) → Bool
  | _, [] => true
  | since, response :: rest =>
    !(pollOnce stack_id since response).2.2 &&
      noneDone stack_id (pollOnce stack_id since response).2.1 rest

/-- Steps that issue the mutating CloudFormation calls. -/
def isExecCall : Step → Bool
  | .call (.executeChangeSet _) => true
  | .call (.deleteStack _) => true
  | _ => false

/-- Whether an API call is justified by the change sets yielded so far: an
`ExecuteChangeSet` call must execute the id of a previously yielded
Create/Update change set, a `DeleteStack` call must target the stack id of a
previously yielded Delete change set, and all other calls are unrestricted. -/
def matchesExec (seen : List ChangeSet) (api : ApiCall) : Bool :=
  match api with
  | .executeChangeSet id =>
    seen.any fun cs =>
      decide (cs.effect = .create id) || decide (cs.effect = .update id)
  | .deleteStack stack_name =>
    seen.any fun cs =>
      decide (cs.effect = .delete) && decide (cs.stack_id = stack_name)
  | _ => true

/-- Scan a trace, accumulating yielded change sets, and check that every
mutating call was preceded by the yield of a matching change set. -/
def plan_before_execute_check (seen : List ChangeSet) : List Step → Bool
  | [] => true
  | .yieldChangeSet cs :: rest => plan_before_execute_check (cs :: seen) rest
  | .call api :: rest =>
    matchesExec seen api && plan_before_execute_check seen rest
  | _ :: rest => plan_before_execute_check seen rest

/-- The change sets yielded during a trace, newest first, on top of `seen`. -/
def seenAfter (seen : List ChangeSet) (steps : List Step) : List ChangeSet :=
  steps.foldl
    (fun acc step =>
      match step with
      | .yieldChangeSet cs => cs :: acc
      | _ => acc)
    seen

/-- Concrete event fixture used by witnesses. -/
def mkEvent (ts : Nat) (pid : Option String) (status : ResourceStatus) :
    StackEvent :=
  { physical_resource_id := pid
    logical_resource_id := "Resource"
    resource_type := "AWS::CloudFormation::Stack"
    resource_status := status
    resource_status_reason := none
    timestamp := ts }

/-- Concrete deploy input fixture. -/
def inputFix : DeployInput :=
  { stack_name := "my-stack", parameters := [], template_body := "tmpl" }

/-- Concrete settled change-set creation outcome fixture (AVAILABLE). -/
def outcomeFix : ChangeSetOutcome :=
  { change_set_id := "cs-1"
    stack_id := "stack-id"
    status := "CREATE_COMPLETE"
    execution_status := some "AVAILABLE"
    status_reason := none
    changes := [{ action := .add
                  logical_resource_id := "Resource"
                  physical_resource_id := none
                  resource_type := "AWS::S3::Bucket" }] }

/-- Concrete execution environment fixture whose single poll ends with a
terminal DELETE_COMPLETE stack event. -/
def deleteExecFix : ExecEnv :=
  { now := 0
    last_event_response := []
    poll_responses := [[mkEvent 2 (some "stack-id") .deleteComplete,
                        mkEvent 1 none .deleteInProgress]] }

/-- Concrete execution environment fixture whose single poll ends with a
terminal CREATE_COMPLETE stack event. -/
def createExecFix : ExecEnv :=
  { now := 0
    last_event_response := []
    poll_responses := [[mkEvent 4 (some "stack-id") .createComplete,
                        mkEvent 3 none .createInProgress]] }

/-- Concrete deploy environment fixture in which the initial `DescribeStacks`
reports ROLLBACK_COMPLETE. -/
def envRollbackComplete : DeployEnv :=
  { describe_stacks := .ok "ROLLBACK_COMPLETE" "stack-id"
    delete_resources := [{ logical_resource_id := "Resource"
                           physical_resource_id := some "phys"
                           resource_type := "AWS::S3::Bucket" }]
    delete_exec := deleteExecFix
    create_outcome := outcomeFix
    create_exec := createExecFix
    update_outcome := outcomeFix
    update_exec := createExecFix }

/-- First concrete poll response (newest-first), no terminal event. -/
def respA : List StackEvent :=
  [mkEvent 2 none .createInProgress, mkEvent 1 none .createInProgress]

/-- Second concrete poll response (newest-first), overlapping `respA` at
timestamp 2 and ending with a terminal stack event. -/
def respB : List StackEvent :=
  [mkEvent 3 (some "stack-id") .createComplete, mkEvent 2 none .createInProgress]

/-- Concrete response sequence with an overlap between consecutive polls. -/
def rsFix : List (List StackEvent) := [respA, respB]

/-- Concrete settled outcome whose FAILED reason is the no-changes message. -/
def outcomeNoChanges : ChangeSetOutcome :=
  { change_set_id := "cs-1"
    stack_id := "stack-id"
    status := "FAILED"
    execution_status := some "UNAVAILABLE"
    status_reason := some "The submitted information didn\x27t contain changes."
    changes := [] }

/-- Concrete settled outcome whose FAILED reason is the UpdateStack-style
"No updates are to be performed." message. -/
def outcomeNoUpdates : ChangeSetOutcome :=
  { change_set_id := "cs-1"
    stack_id := "stack-id"
    status := "FAILED"
    execution_status := some "UNAVAILABLE"
    status_reason := some "No updates are to be performed."
    changes := [] }

/-- Concrete skip change set fixture. -/
def skipCs : ChangeSet :=
  { effect := .skip
    stack_name := "my-stack"
    stack_id := "stack-id"
    resource_changes := [] }

/-- Concrete execution environment whose prior most-recent stack event is a
CREATE_COMPLETE at timestamp 9. -/
def skipExecFix : ExecEnv :=
  { now := 10
    last_event_response := [mkEvent 9 (some "stack-id") .createComplete]
    poll_responses := [] }

/-- Concrete `DescribeStackResources` response fixture. -/
def resourcesFix : List StackResource :=
  [{ logical_resource_id := "Resource"
     physical_resource_id := some "phys"
     resource_type := "AWS::S3::Bucket" }]

/-- Concrete delete change set fixture. -/
def csDeleteFix : ChangeSet :=
  { effect := .delete
    stack_name := "my-stack"
    stack_id := "stack-id"
    resource_changes := [] }

/-- Concrete execution environment whose stream contains a resource error and
ends with a stack-level DELETE_FAILED error event. -/
def execErrEnv : ExecEnv :=
  { now := 0
    last_event_response := []
    poll_responses := [[mkEvent 2 (some "stack-id") .deleteFailed,
                        mkEvent 1 none .deleteFailed]] }

/-! Poller lemmas. -/

theorem pollOnce_batch (sid : String) (since : Nat) (r : List StackEvent) :
    (pollOnce sid since r).1 = (retained since r).reverse := by
  simp only [pollOnce]
  cases h : (retained since r).head? with
  | none => rw [List.head?_eq_none_iff.mp h]; rfl
  | some e => rfl

theorem pollOnce_since2_none (sid : String) (since : Nat) (r : List StackEvent)
    (h : (retained since r).head? = none) :
    (pollOnce sid since r).2.1 = since := by
  simp only [pollOnce, h]

theorem pollOnce_since2_some (sid : String) (since : Nat) (r : List StackEvent)
    (e : StackEvent) (h : (retained since r).head? = some e) :
    (pollOnce sid since r).2.1 = e.timestamp := by
  simp only [pollOnce, h]

theorem pollOnce_done_def (sid : String) (since : Nat) (r : List StackEvent)
    (e : StackEvent) (h : (retained since r).head? = some e) :
    (pollOnce sid since r).2.2 =
      (decide (e.physical_resource_id = some sid)
        && e.resource_status.is_terminal) := by
  simp only [pollOnce, h]

theorem mem_retained (since : Nat) (r : List StackEvent) (e : StackEvent) :
    e ∈ retained since r ↔ e ∈ r ∧ since < e.timestamp := by
  simp [retained, List.mem_filter]

theorem pollOnce_batch_mem (sid : String) (since : Nat) (r : List StackEvent)
    (e : StackEvent) :
    e ∈ (pollOnce sid since r).1 ↔ e ∈ r ∧ since < e.timestamp := by
  rw [pollOnce_batch, List.mem_reverse, mem_retained]

theorem pollOnce_since_le (sid : String) (since : Nat) (r : List StackEvent) :
    since ≤ (pollOnce sid since r).2.1 := by
  cases h : (retained since r).head? with
  | none => rw [pollOnce_since2_none sid since r h]
  | some e =>
    rw [pollOnce_since2_some sid since r e h]
    obtain ⟨ys, hys⟩ := List.head?_eq_some_iff.mp h
    have he : e ∈ retained since r := by rw [hys]; exact List.mem_cons_self _ _
    exact le_of_lt ((mem_retained since r e).mp he).2

theorem pollOnce_batch_le (sid : String) (since : Nat) (r : List StackEvent)
    (hr : DescSorted r) :
    ∀ e ∈ (pollOnce sid since r).1, e.timestamp ≤ (pollOnce sid since r).2.1 := by
  cases h : (retained since r).head? with
  | none =>
    intro e he
    rw [pollOnce_batch, List.mem_reverse, List.head?_eq_none_iff.mp h] at he
    cases he
  | some a =>
    intro e he
    rw [pollOnce_batch, List.mem_reverse] at he
    rw [pollOnce_since2_some sid since r a h]
    obtain ⟨ys, hys⟩ := List.head?_eq_some_iff.mp h
    have hsorted : List.Pairwise (fun x y => y.timestamp ≤ x.timestamp)
        (retained since r) :=
      List.Pairwise.sublist (List.filter_sublist r) hr
    rw [hys] at hsorted he
    rcases List.mem_cons.mp he with rfl | hmem
    · exact le_refl _
    · exact (List.pairwise_cons.mp hsorted).1 e hmem

theorem run_cons (sid : String) (since : Nat) (r : List StackEvent)
    (rest : List (List StackEvent)) :
    stack_events_since sid since (r :: rest) =
      if (pollOnce sid since r).2.2 then ((pollOnce sid since r).1, 1)
      else ((pollOnce sid since r).1 ++
              (stack_events_since sid (pollOnce sid since r).2.1 rest).1,
            (stack_events_since sid (pollOnce sid since r).2.1 rest).2 + 1) :=
  rfl

theorem noneDone_cons (sid : String) (since : Nat) (r : List StackEvent)
    (rest : List (List StackEvent)) :
    noneDone sid since (r :: rest) =
      (!(pollOnce sid since r).2.2 &&
        noneDone sid (pollOnce sid since r).2.1 rest) :=
  rfl

theorem exitSince_cons (sid : String) (since : Nat) (r : List StackEvent)
    (rest : List (List StackEvent)) :
    exitSince sid since (r :: rest) =
      exitSince sid (pollOnce sid since r).2.1 rest :=
  rfl

theorem exitSince_le (sid : String) :
    ∀ rs since, since ≤ exitSince sid since rs := by
  intro rs
  induction rs with
  | nil => intro since; exact le_refl _
  | cons r rest ih =>
    intro since
    rw [exitSince_cons]
    exact le_trans (pollOnce_since_le sid since r) (ih _)

theorem run_mem_gt (sid : String) :
    ∀ rs since e, e ∈ (stack_events_since sid since rs).1 → since < e.timestamp := by
  intro rs
  induction rs with
  | nil => intro since e he; cases he
  | cons r rest ih =>
    intro since e he
    rw [run_cons] at he
    by_cases hd : (pollOnce sid since r).2.2
    · rw [if_pos hd] at he
      exact ((pollOnce_batch_mem sid since r e).mp he).2
    · rw [if_neg hd] at he
      rcases List.mem_append.mp he with he | he
      · exact ((pollOnce_batch_mem sid since r e).mp he).2
      · exact lt_of_le_of_lt (pollOnce_since_le sid since r) (ih _ e he)

theorem run_mem_le_exit (sid : String) :
    ∀ rs since, (∀ r ∈ rs, DescSorted r) → noneDone sid since rs = true →
      ∀ e ∈ (stack_events_since sid since rs).1,
        e.timestamp ≤ exitSince sid since rs := by
  intro rs
  induction rs with
  | nil => intro since _ _ e he; cases he
  | cons r rest ih =>
    intro since hs hn e he
    rw [noneDone_cons, Bool.and_eq_true, Bool.not_eq_true'] at hn
    rw [run_cons, if_neg (by rw [hn.1]; exact Bool.false_ne_true)] at he
    rw [exitSince_cons]
    rcases List.mem_append.mp he with he | he
    · exact le_trans
        (pollOnce_batch_le sid since r (hs r (List.mem_cons_self _ _)) e he)
        (exitSince_le sid rest _)
    · exact ih _ (fun x hx => hs x (List.mem_cons_of_mem _ hx)) hn.2 e he

theorem run_sorted (sid : String) :
    ∀ rs since, (∀ r ∈ rs, DescSorted r) →
      List.Pairwise (fun a b => a.timestamp ≤ b.timestamp)
        (stack_events_since sid since rs).1 := by
  intro rs
  induction rs with
  | nil => intro since _; exact List.Pairwise.nil
  | cons r rest ih =>
    intro since hs
    have hr : DescSorted r := hs r (List.mem_cons_self _ _)
    have hbatch : List.Pairwise (fun a b => a.timestamp ≤ b.timestamp)
        (pollOnce sid since r).1 := by
      rw [pollOnce_batch, List.pairwise_reverse]
      exact List.Pairwise.sublist (List.filter_sublist r) hr
    rw [run_cons]
    by_cases hd : (pollOnce sid since r).2.2
    · rw [if_pos hd]; exact hbatch
    · rw [if_neg hd]
      rw [List.pairwise_append]
      refine ⟨hbatch, ih _ (fun x hx => hs x (List.mem_cons_of_mem _ hx)), ?_⟩
      intro a ha b hb
      exact le_trans (pollOnce_batch_le sid since r hr a ha)
        (le_of_lt (run_mem_gt sid rest _ b hb))

theorem run_append_of_noneDone (sid : String) :
    ∀ rs₁ since rest, noneDone sid since rs₁ = true →
      stack_events_since sid since (rs₁ ++ rest) =
        ((stack_events_since sid since rs₁).1 ++
           (stack_events_since sid (exitSince sid since rs₁) rest).1,
         rs₁.length + (stack_events_since sid (exitSince sid since rs₁) rest).2) := by
  intro rs₁
  induction rs₁ with
  | nil =>
    intro since rest _
    simp [stack_events_since, exitSince]
  | cons r rs₁ ih =>
    intro since rest hn
    rw [noneDone_cons, Bool.and_eq_true, Bool.not_eq_true'] at hn
    have hd : ¬(pollOnce sid since r).2.2 := by
      rw [hn.1]; exact Bool.false_ne_true
    rw [List.cons_append, run_cons, if_neg hd, ih _ rest hn.2,
        run_cons, if_neg hd, exitSince_cons]
    simp only [Prod.mk.injEq, List.append_assoc, List.length_cons]
    exact ⟨by simp, by omega⟩

theorem run_count_zero_of_le (sid : String) (e : StackEvent)
    (rs : List (List StackEvent)) (since : Nat) (h : e.timestamp ≤ since) :
    ((stack_events_since sid since rs).1).count e = 0 := by
  refine List.count_eq_zero_of_not_mem fun hmem => ?_
  have := run_mem_gt sid rs since e hmem
  omega

theorem count_retained (since : Nat) (r : List StackEvent) (e : StackEvent)
    (h : since < e.timestamp) :
    (retained since r).count e = r.count e :=
  List.count_filter (by simpa using h)

theorem run_count_overlap (sid : String) (e : StackEvent) :
    ∀ rs₁ since r rs₂,
      (∀ x ∈ rs₁, DescSorted x) → DescSorted r →
      noneDone sid since rs₁ = true →
      exitSince sid since rs₁ < e.timestamp → e ∈ r →
      ((stack_events_since sid since (rs₁ ++ r :: rs₂)).1).count e =
        r.count e := by
  intro rs₁
  induction rs₁ with
  | nil =>
    intro since r rs₂ _ hr _ hgt hmem
    have hb : e ∈ (pollOnce sid since r).1 :=
      (pollOnce_batch_mem sid since r e).mpr ⟨hmem, hgt⟩
    have hbcount : ((pollOnce sid since r).1).count e = r.count e := by
      rw [pollOnce_batch, List.count_reverse]
      exact count_retained since r e hgt
    rw [List.nil_append, run_cons]
    by_cases hd : (pollOnce sid since r).2.2
    · rw [if_pos hd]; exact hbcount
    · rw [if_neg hd]
      have hle : e.timestamp ≤ (pollOnce sid since r).2.1 :=
        pollOnce_batch_le sid since r hr e hb
      simp only [List.count_append, hbcount,
        run_count_zero_of_le sid e rs₂ _ hle, Nat.add_zero]
  | cons r0 rs₁ ih =>
    intro since r rs₂ hs hr hn hgt hmem
    rw [noneDone_cons, Bool.and_eq_true, Bool.not_eq_true'] at hn
    have hd : ¬(pollOnce sid since r0).2.2 := by
      rw [hn.1]; exact Bool.false_ne_true
    rw [exitSince_cons] at hgt
    have hb0 : ((pollOnce sid since r0).1).count e = 0 := by
      refine List.count_eq_zero_of_not_mem fun hmem0 => ?_
      have h1 : e.timestamp ≤ (pollOnce sid since r0).2.1 :=
        pollOnce_batch_le sid since r0 (hs r0 (List.mem_cons_self _ _)) e hmem0
      have h2 := exitSince_le sid rs₁ (pollOnce sid since r0).2.1
      omega
    rw [List.cons_append, run_cons, if_neg hd]
    simp only [List.count_append, hb0, Nat.zero_add]
    exact ih _ r rs₂ (fun x hx => hs x (List.mem_cons_of_mem _ hx)) hr
      hn.2 hgt hmem

/-- C2: for every apply/delete event-polling run fed newest-first
`DescribeStackEvents` responses, the yielded stream is ascending in timestamp;
every yielded event is strictly newer than the initial high-water mark; an
event retained at some poll (strictly newer than the high-water mark entering
that poll) is yielded exactly as often as it occurs in that poll's response,
regardless of how many later responses repeat it; and each poll's contribution
is the retained events in reverse of the API order. -/
theorem stack_events_since_monotonic_dedup (sid : String) (since : Nat)
    (rs : List (List StackEvent)) (hs : ∀ r ∈ rs, DescSorted r) :
    List.Pairwise (fun a b => a.timestamp ≤ b.timestamp)
      (stack_events_since sid since rs).1 ∧
    (∀ e ∈ (stack_events_since sid since rs).1, since < e.timestamp) ∧
    (∀ rs₁ r rs₂ (e : StackEvent), rs = rs₁ ++ r :: rs₂ →
      noneDone sid since rs₁ = true → exitSince sid since rs₁ < e.timestamp →
      e ∈ r →
      ((stack_events_since sid since rs).1).count e = r.count e) ∧
    (∀ r rest, rs = r :: rest →
      ∃ tail, (stack_events_since sid since rs).1 =
        (retained since r).reverse ++ tail) := by
  refine ⟨run_sorted sid rs since hs,
    fun e he => run_mem_gt sid rs since e he, ?_, ?_⟩
  · intro rs₁ r rs₂ e hrs hn hgt hmem
    subst hrs
    exact run_count_overlap sid e rs₁ since r rs₂
      (fun x hx => hs x (List.mem_append_left _ hx))
      (hs r (List.mem_append_right _ (List.mem_cons_self _ _))) hn hgt hmem
  · intro r rest hrs
    subst hrs
    by_cases hd : (pollOnce sid since r).2.2
    · refine ⟨[], ?_⟩
      simp [run_cons, hd, pollOnce_batch]
    · refine ⟨(stack_events_since sid (pollOnce sid since r).2.1 rest).1, ?_⟩
      simp [run_cons, hd, pollOnce_batch]

theorem stack_events_since_monotonic_dedup_witness :
    List.Pairwise (fun a b => a.timestamp ≤ b.timestamp)
      (stack_events_since "stack-id" 0 rsFix).1 ∧
    ((stack_events_since "stack-id" 0 rsFix).1).count
        (mkEvent 2 none .createInProgress) =
      respA.count (mkEvent 2 none .createInProgress) := by
  have h := stack_events_since_monotonic_dedup "stack-id" 0 rsFix (by decide)
  exact ⟨h.1, h.2.2.1 [] respA [respB] (mkEvent 2 none .createInProgress) rfl
    (by decide) (by decide) (by decide)⟩

/-- C3: if, after some polls none of which observes the terminal-for-stack
condition, a poll's newest retained event has the stack id as physical id and
a terminal status, then the stream stops at that poll: exactly one more
`DescribeStackEvents` call is issued no matter how many further responses are
available, the output ends with that poll's batch, and the last yielded event
is the terminal stack event. -/
theorem stack_events_since_terminal_closure (sid : String) (since : Nat)
    (rs₁ : List (List StackEvent)) (r : List StackEvent)
    (rs₂ : List (List StackEvent))
    (h1 : noneDone sid since rs₁ = true)
    (h2 : (pollOnce sid (exitSince sid since rs₁) r).2.2 = true) :
    (stack_events_since sid since (rs₁ ++ r :: rs₂)).2 = rs₁.length + 1 ∧
    (stack_events_since sid since (rs₁ ++ r :: rs₂)).1 =
      (stack_events_since sid since rs₁).1 ++
        (pollOnce sid (exitSince sid since rs₁) r).1 ∧
    ∃ e, ((stack_events_since sid since (rs₁ ++ r :: rs₂)).1).getLast? = some e ∧
      e.physical_resource_id = some sid ∧
      e.resource_status.is_terminal = true := by
  rw [run_append_of_noneDone sid rs₁ since (r :: rs₂) h1]
  rw [run_cons, if_pos h2]
  refine ⟨rfl, rfl, ?_⟩
  cases hh : (retained (exitSince sid since rs₁) r).head? with
  | none =>
    rw [pollOnce] at h2
    rw [hh] at h2
    cases h2
  | some a =>
    refine ⟨a, ?_, ?_, ?_⟩
    · rw [pollOnce_batch, List.getLast?_append, List.getLast?_reverse, hh]
      rfl
    · have := pollOnce_done_def sid (exitSince sid since rs₁) r a hh
      rw [this, Bool.and_eq_true] at h2
      exact of_decide_eq_true h2.1
    · have := pollOnce_done_def sid (exitSince sid since rs₁) r a hh
      rw [this, Bool.and_eq_true] at h2
      exact h2.2

theorem stack_events_since_terminal_closure_witness :
    (stack_events_since "stack-id" 0 (([respA] : List (List StackEvent)) ++
        respB :: [respA])).2 = 2 := by
  have h := stack_events_since_terminal_closure "stack-id" 0 [respA] respB
    [respA] (by decide) (by decide)
  simpa using h.1

/-! Status vocabulary and event conversion claims. -/

/-- C8 (code bug): the status parser does not cover the documented UPDATE_*
family of CloudFormation statuses — every UPDATE_* wire string fails to parse,
and converting an event that carries one aborts (models the
`expect("unknown ResourceStatus")` panic in `StackEvent::from_native`), even
though the library itself drives UPDATE-type change sets. -/
theorem resource_status_update_strings_unparsed :
    ResourceStatus.fromStr "UPDATE_IN_PROGRESS" = none ∧
    ResourceStatus.fromStr "UPDATE_COMPLETE" = none ∧
    ResourceStatus.fromStr "UPDATE_COMPLETE_CLEANUP_IN_PROGRESS" = none ∧
    ResourceStatus.fromStr "UPDATE_ROLLBACK_IN_PROGRESS" = none ∧
    ResourceStatus.fromStr "UPDATE_ROLLBACK_FAILED" = none ∧
    ResourceStatus.fromStr "UPDATE_ROLLBACK_COMPLETE" = none ∧
    StackEvent.from_native
      { physical_resource_id := some "stack-id"
        logical_resource_id := some "Resource"
        resource_type := some "AWS::CloudFormation::Stack"
        resource_status := some "UPDATE_IN_PROGRESS"
        resource_status_reason := none
        timestamp := 1 } = none ∧
    (∀ status : ResourceStatus,
      ResourceStatus.fromStr status.toStr = some status) := by
  refine ⟨rfl, rfl, rfl, rfl, rfl, rfl, rfl, ?_⟩
  intro status
  cases status <;> rfl

/-- C9: every converted event has a physical resource id that is either absent
or non-empty — `from_native` normalises the empty string to `none` — so the
terminal-for-stack comparison of the poller can never match on an empty id. -/
theorem from_native_physical_id_not_empty (native : NativeStackEvent)
    (event : StackEvent) (h : StackEvent.from_native native = some event) :
    (event.physical_resource_id = none ∨
      ∃ s, event.physical_resource_id = some s ∧ s ≠ "") ∧
    event.physical_resource_id ≠ some "" := by
  rcases native with ⟨pid?, lid?, rty?, rst?, rsn?, ts⟩
  cases pid? with
  | none => simp [StackEvent.from_native] at h
  | some pid =>
  cases lid? with
  | none => simp [StackEvent.from_native] at h
  | some lid =>
  cases rty? with
  | none => simp [StackEvent.from_native] at h
  | some rty =>
  cases rst? with
  | none => simp [StackEvent.from_native] at h
  | some rst =>
  cases hst : ResourceStatus.fromStr rst with
  | none => simp [StackEvent.from_native, hst] at h
  | some status =>
  simp only [StackEvent.from_native, Option.bind_eq_bind, Option.some_bind,
    hst] at h
  cases h
  by_cases hempty : pid.isEmpty
  · constructor
    · exact Or.inl (by simp [hempty])
    · simp [hempty]
  · have hne : pid ≠ "" := by
      intro hc
      rw [hc] at hempty
      exact hempty (by decide)
    constructor
    · exact Or.inr ⟨pid, by simp [hempty], hne⟩
    · simp only [Bool.not_eq_true] at hempty
      simp [hempty, hne]

theorem from_native_physical_id_not_empty_witness :
    ({ physical_resource_id := none
       logical_resource_id := "Resource"
       resource_type := "AWS::CloudFormation::Stack"
       resource_status := ResourceStatus.createComplete
       resource_status_reason := none
       timestamp := 7 } : StackEvent).physical_resource_id ≠ some "" :=
  (from_native_physical_id_not_empty
    { physical_resource_id := some ""
      logical_resource_id := some "Resource"
      resource_type := some "AWS::CloudFormation::Stack"
      resource_status := some "CREATE_COMPLETE"
      resource_status_reason := none
      timestamp := 7 }
    _ rfl).2

/-! Change-set builder claims. -/

/-- C4 counterexample: a FAILED change set whose status reason is
"No updates are to be performed." is not recognised as an empty change set —
`create_change_set` returns a `CreateChangeSetFailed` error rather than a
`Skip` change set, because the source only matches the fixed sentence
"The submitted information didn\x27t contain changes.". -/
theorem create_change_set_no_updates_reason_fails :
    create_change_set "my-stack" outcomeNoUpdates .updateType =
      .error (.createChangeSetFailed "FAILED"
        (some "No updates are to be performed.")) := by
  decide

/-- C4 (amended): if change-set creation settles FAILED with a status reason
containing "The submitted information didn\x27t contain changes.", the builder
returns a Skip change set with an empty change list instead of an error; and
executing any Skip change set never calls `ExecuteChangeSet`, finishes
successfully, and (when the stack has any prior event) emits exactly one
event: the prior most-recent stack event fetched via `DescribeStackEvents`. -/
theorem create_change_set_skip_noop (stack_name : String)
    (outcome : ChangeSetOutcome) (ty : ChangeSetType) (env : ExecEnv)
    (h1 : outcome.status = "FAILED")
    (h2 : strContains (outcome.status_reason.getD "")
        "The submitted information didn\x27t contain changes." = true)
    (h3 : outcome.execution_status ≠ some "AVAILABLE") :
    create_change_set stack_name outcome ty =
      .ok { effect := .skip
            stack_id := outcome.stack_id
            stack_name := stack_name
            resource_changes := [] } ∧
    ∀ cs : ChangeSet, cs.effect = .skip →
      (execute env cs false).2 = .ok () ∧
      (∀ id, Step.call (.executeChangeSet id) ∉ (execute env cs false).1) ∧
      (env.last_event_response ≠ [] →
        ∃ e, last_stack_event env.last_event_response = some e ∧
          yieldedEvents (execute env cs false).1 = [e]) := by
  constructor
  · rw [create_change_set.eq_def, if_pos h3, if_pos]
    simp [h1, h2]
  · intro cs hcs
    rcases cs with ⟨eff, sn, csid, rc⟩
    simp only at hcs
    subst hcs
    cases hresp : env.last_event_response with
    | nil =>
      refine ⟨rfl, ?_, ?_⟩
      · intro id
        simp [execute, last_stack_event, hresp, yieldedEvents]
      · intro hne; exact absurd rfl hne
    | cons e rest =>
      refine ⟨rfl, ?_, ?_⟩
      · intro id
        simp [execute, last_stack_event, hresp, yieldedEvents]
      · intro _
        refine ⟨e, ?_, ?_⟩
        · rfl
        · simp [execute, last_stack_event, hresp, yieldedEvents]

theorem create_change_set_skip_noop_witness :
    create_change_set "my-stack" outcomeNoChanges .updateType = .ok skipCs ∧
    yieldedEvents (execute skipExecFix skipCs false).1 =
      [mkEvent 9 (some "stack-id") .createComplete] := by
  have h := create_change_set_skip_noop "my-stack" outcomeNoChanges
    .updateType skipExecFix rfl (by decide) (by decide)
  refine ⟨h.1, ?_⟩
  obtain ⟨e, he, hy⟩ := (h.2 skipCs rfl).2.2 (by decide)
  rw [hy]
  have he2 : some (mkEvent 9 (some "stack-id") .createComplete) = some e := by
    rw [← he]; rfl
  rw [← Option.some.inj he2]

/-- C7 counterexample: the Skip ⟺ empty-change-list equivalence fails
right-to-left — the delete change set synthesised for a stack with no
resources has an empty change list but effect Delete, not Skip. -/
theorem for_delete_empty_not_skip :
    (for_delete [] "stack-id" "my-stack").resource_changes = [] ∧
    (for_delete [] "stack-id" "my-stack").effect = Effect.delete ∧
    (for_delete [] "stack-id" "my-stack").effect ≠ Effect.skip := by
  refine ⟨rfl, rfl, by decide⟩

/-- C7 (amended): every change set returned by `create_change_set` satisfies:
Skip implies an empty change list; the effect is never Delete; and a Create or
Update effect carries exactly the change-set id whose execution status was
observed AVAILABLE.  Every change set synthesised by `for_delete` has effect
Delete and only Remove actions.  (The converse "empty implies Skip" fails, see
the counterexample.) -/
theorem change_set_invariants (stack_name stack_id : String)
    (outcome : ChangeSetOutcome) (ty : ChangeSetType)
    (resources : List StackResource) (cs : ChangeSet)
    (h : create_change_set stack_name outcome ty = .ok cs) :
    (cs.effect = .skip → cs.resource_changes = []) ∧
    (∀ id, (cs.effect = .create id ∨ cs.effect = .update id) →
      id = outcome.change_set_id ∧
      outcome.execution_status = some "AVAILABLE") ∧
    cs.effect ≠ .delete ∧
    (for_delete resources stack_id stack_name).effect = .delete ∧
    (∀ c ∈ (for_delete resources stack_id stack_name).resource_changes,
      c.action = .remove) := by
  have hdel : (for_delete resources stack_id stack_name).effect = .delete := rfl
  have hrem : ∀ c ∈ (for_delete resources stack_id stack_name).resource_changes,
      c.action = ResourceAction.remove := by
    intro c hc
    simp only [for_delete, List.mem_map] at hc
    obtain ⟨r, _, rfl⟩ := hc
    rfl
  rw [create_change_set.eq_def] at h
  by_cases h3 : outcome.execution_status ≠ some "AVAILABLE"
  · rw [if_pos h3] at h
    split at h
    · obtain rfl := Except.ok.inj h
      refine ⟨fun _ => rfl, ?_, by simp, hdel, hrem⟩
      intro id hid
      rcases hid with hid | hid <;> cases hid
    · cases h
  · rw [if_neg h3] at h
    have hav : outcome.execution_status = some "AVAILABLE" := not_not.mp h3
    obtain rfl := Except.ok.inj h
    cases ty
    · refine ⟨?_, ?_, ?_, hdel, hrem⟩
      · intro hc; cases hc
      · intro id hid
        rcases hid with hid | hid
        · exact ⟨(Effect.create.inj hid).symm, hav⟩
        · cases hid
      · simp
    · refine ⟨?_, ?_, ?_, hdel, hrem⟩
      · intro hc; cases hc
      · intro id hid
        rcases hid with hid | hid
        · cases hid
        · exact ⟨(Effect.update.inj hid).symm, hav⟩
      · simp

theorem change_set_invariants_witness :
    ({ action := .remove
       logical_resource_id := "Resource"
       physical_resource_id := some "phys"
       resource_type := "AWS::S3::Bucket" } : ResourceChange).action =
      ResourceAction.remove :=
  (change_set_invariants "my-stack" "stack-id" outcomeFix .createType
    resourcesFix
    { effect := .create "cs-1"
      stack_name := "my-stack"
      stack_id := "stack-id"
      resource_changes := outcomeFix.changes }
    (by decide)).2.2.2.2
    { action := .remove
      logical_resource_id := "Resource"
      physical_resource_id := some "phys"
      resource_type := "AWS::S3::Bucket" }
    (by decide)

/-! Execution error partition (C6). -/

theorem accumStep_foldl (sid : String) :
    ∀ (events : List StackEvent) (acc : Option StackEvent × List StackEvent),
      events.foldl (accumStep sid) acc =
        ((stackErrors sid events).getLast?.or acc.1,
         acc.2 ++ resourceErrors sid events) := by
  intro events
  induction events with
  | nil =>
    intro acc
    simp [stackErrors, resourceErrors]
  | cons e rest ih =>
    intro acc
    rw [List.foldl_cons, ih]
    by_cases herr : e.resource_status.is_error
    · by_cases hpid : e.physical_resource_id = some sid
      · have hs : stackErrors sid (e :: rest) = e :: stackErrors sid rest := by
          simp [stackErrors, List.filter_cons, herr, hpid]
        have hr : resourceErrors sid (e :: rest) = resourceErrors sid rest := by
          simp [resourceErrors, List.filter_cons, herr, hpid]
        rw [hs, hr, accumStep, if_pos herr, if_pos hpid]
        cases hsl : (stackErrors sid rest).getLast? with
        | none => simp [List.getLast?_cons, hsl]
        | some x => simp [List.getLast?_cons, hsl]
      · have hs : stackErrors sid (e :: rest) = stackErrors sid rest := by
          simp [stackErrors, List.filter_cons, herr, hpid]
        have hr : resourceErrors sid (e :: rest)
            = e :: resourceErrors sid rest := by
          simp [resourceErrors, List.filter_cons, herr, hpid]
        rw [hs, hr, accumStep, if_pos herr, if_neg hpid]
        simp
    · have hs : stackErrors sid (e :: rest) = stackErrors sid rest := by
        simp [stackErrors, List.filter_cons, herr]
      have hr : resourceErrors sid (e :: rest) = resourceErrors sid rest := by
        simp [resourceErrors, List.filter_cons, herr]
      rw [hs, hr, accumStep, if_neg herr]

theorem accumErrors_eq (sid : String) (events : List StackEvent) :
    accumErrors sid events =
      ((stackErrors sid events).getLast?, resourceErrors sid events) := by
  rw [accumErrors, accumStep_foldl]
  simp

/-- C6: while streaming execution events, exactly the four error statuses
(CREATE_FAILED, DELETE_FAILED, ROLLBACK_FAILED and ROLLBACK_COMPLETE) count as
errors; the operation succeeds iff no streamed error event carried the stack id
as its physical id; and when stack error events exist the operation fails with
the latest of them together with the accumulated resource-error events. -/
theorem execute_error_partition (env : ExecEnv) (cs : ChangeSet)
    (has_sender : Bool) (h : cs.effect ≠ .skip) :
    (∀ st : ResourceStatus, st.is_error = true ↔
      (st = .createFailed ∨ st = .deleteFailed ∨ st = .rollbackFailed ∨
        st = .rollbackComplete)) ∧
    ((execute env cs has_sender).2 = .ok () ↔
      stackErrors cs.stack_id
        (yieldedEvents (streamPolls cs.stack_id env.now env.poll_responses))
        = []) ∧
    (∀ e,
      (stackErrors cs.stack_id
        (yieldedEvents
          (streamPolls cs.stack_id env.now env.poll_responses))).getLast?
        = some e →
      (execute env cs has_sender).2 =
        .error (.executeChangeSetFailed e
          (resourceErrors cs.stack_id
            (yieldedEvents
              (streamPolls cs.stack_id env.now env.poll_responses))))) := by
  refine ⟨?_, ?_⟩
  · intro st
    cases st <;> simp [ResourceStatus.is_error]
  · have hrun : (execute env cs has_sender).2 =
        (execute.execRun env cs
          (match cs.effect with
           | .create id => Step.call (.executeChangeSet id)
           | .update id => Step.call (.executeChangeSet id)
           | _ => Step.call (.deleteStack cs.stack_id))
          has_sender).2 := by
      rcases cs with ⟨eff, sn, csid, rc⟩
      cases eff with
      | skip => exact absurd rfl h
      | create id => rfl
      | update id => rfl
      | delete => rfl
    rw [hrun, execute.execRun]
    simp only [accumErrors_eq]
    cases hsl : (stackErrors cs.stack_id
        (yieldedEvents
          (streamPolls cs.stack_id env.now env.poll_responses))).getLast? with
    | none =>
      constructor
      · constructor
        · intro _
          exact List.getLast?_eq_none_iff.mp hsl
        · intro _
          rfl
      · intro e he
        exact Option.noConfusion he
    | some x =>
      constructor
      · constructor
        · intro hc
          cases hc
        · intro hnil
          rw [hnil] at hsl
          cases hsl
      · intro e he
        obtain rfl := Option.some.inj he
        rfl

theorem execute_error_partition_witness :
    (execute execErrEnv csDeleteFix true).2 =
      .error (.executeChangeSetFailed
        (mkEvent 2 (some "stack-id") .deleteFailed)
        [mkEvent 1 none .deleteFailed]) := by
  have h := execute_error_partition execErrEnv csDeleteFix true (by decide)
  have := h.2.2 (mkEvent 2 (some "stack-id") .deleteFailed) (by decide)
  rw [this]
  rfl

/-! Plan-before-execute (C5). -/

theorem streamPolls_cons (sid : String) (since : Nat) (r : List StackEvent)
    (rest : List (List StackEvent)) :
    streamPolls sid since (r :: rest) =
      Step.call (.describeStackEvents sid) ::
        (pollOnce sid since r).1.map .yieldEvent ++
        (if (pollOnce sid since r).2.2 then []
         else streamPolls sid (pollOnce sid since r).2.1 rest) :=
  rfl

theorem streamPolls_shape (sid : String) :
    ∀ rs since s, s ∈ streamPolls sid since rs →
      s = Step.call (.describeStackEvents sid) ∨ ∃ e, s = Step.yieldEvent e := by
  intro rs
  induction rs with
  | nil => intro since s hs; cases hs
  | cons r rest ih =>
    intro since s hs
    rw [streamPolls_cons] at hs
    rcases List.mem_cons.mp hs with rfl | hs
    · exact Or.inl rfl
    rcases List.mem_append.mp hs with hs | hs
    · obtain ⟨e, _, rfl⟩ := List.mem_map.mp hs
      exact Or.inr ⟨e, rfl⟩
    · by_cases hd : (pollOnce sid since r).2.2
      · rw [if_pos hd] at hs; cases hs
      · rw [if_neg hd] at hs; exact ih _ s hs

theorem streamPolls_no_exec (sid : String) (rs : List (List StackEvent))
    (since : Nat) : ∀ s ∈ streamPolls sid since rs, isExecCall s = false := by
  intro s hs
  rcases streamPolls_shape sid rs since s hs with rfl | ⟨e, rfl⟩ <;> rfl

theorem streamPolls_no_send (sid : String) (rs : List (List StackEvent))
    (since : Nat) : Step.sendComplete ∉ streamPolls sid since rs := by
  intro hs
  rcases streamPolls_shape sid rs since _ hs with hc | ⟨e, hc⟩ <;> cases hc

theorem streamPolls_no_yield_cs (sid : String) (rs : List (List StackEvent))
    (since : Nat) (cs : ChangeSet) :
    Step.yieldChangeSet cs ∉ streamPolls sid since rs := by
  intro hs
  rcases streamPolls_shape sid rs since _ hs with hc | ⟨e, hc⟩ <;> cases hc

theorem plan_check_of_no_exec :
    ∀ (steps : List Step) (seen : List ChangeSet),
      (∀ s ∈ steps, isExecCall s = false) →
      plan_before_execute_check seen steps = true := by
  intro steps
  induction steps with
  | nil => intro seen _; rfl
  | cons s rest ih =>
    intro seen hall
    have hrest : ∀ x ∈ rest, isExecCall x = false :=
      fun x hx => hall x (List.mem_cons_of_mem _ hx)
    cases s with
    | yieldChangeSet cs => exact ih (cs :: seen) hrest
    | yieldEvent e => exact ih seen hrest
    | sendComplete => exact ih seen hrest
    | call api =>
      have hs := hall _ (List.mem_cons_self _ _)
      have hm : matchesExec seen api = true := by
        cases api <;> first | rfl | simp [isExecCall] at hs
      simp only [plan_before_execute_check, hm, Bool.true_and]
      exact ih seen hrest

theorem plan_check_append :
    ∀ (xs ys : List Step) (seen : List ChangeSet),
      plan_before_execute_check seen (xs ++ ys) =
        (plan_before_execute_check seen xs &&
          plan_before_execute_check (seenAfter seen xs) ys) := by
  intro xs
  induction xs with
  | nil => intro ys seen; rfl
  | cons s rest ih =>
    intro ys seen
    cases s with
    | yieldChangeSet cs =>
      rw [List.cons_append]
      show plan_before_execute_check (cs :: seen) (rest ++ ys) = _
      rw [ih]
      rfl
    | call api =>
      rw [List.cons_append]
      show (matchesExec seen api &&
          plan_before_execute_check seen (rest ++ ys)) = _
      rw [ih, ← Bool.and_assoc]
      rfl
    | yieldEvent e =>
      rw [List.cons_append]
      show plan_before_execute_check seen (rest ++ ys) = _
      rw [ih]
      rfl
    | sendComplete =>
      rw [List.cons_append]
      show plan_before_execute_check seen (rest ++ ys) = _
      rw [ih]
      rfl

theorem execRun_steps (env : ExecEnv) (cs : ChangeSet) (first : Step)
    (hs : Bool) :
    ∃ tail, (execute.execRun env cs first hs).1 = first :: tail ∧
      ∀ s ∈ tail, isExecCall s = false := by
  rw [execute.execRun]
  cases herr : (accumErrors cs.stack_id
      (yieldedEvents (streamPolls cs.stack_id env.now env.poll_responses))).1 with
  | some e =>
    refine ⟨streamPolls cs.stack_id env.now env.poll_responses, rfl, ?_⟩
    exact streamPolls_no_exec cs.stack_id env.poll_responses env.now
  | none =>
    refine ⟨streamPolls cs.stack_id env.now env.poll_responses ++
      (if hs then [Step.sendComplete] else []), rfl, ?_⟩
    intro s hsm
    rcases List.mem_append.mp hsm with hsm | hsm
    · exact streamPolls_no_exec cs.stack_id env.poll_responses env.now s hsm
    · by_cases hb : hs
      · rw [if_pos hb] at hsm
        rcases List.mem_cons.mp hsm with rfl | hsm
        · rfl
        · cases hsm
      · rw [if_neg hb] at hsm; cases hsm

theorem take_no_exec (n : Nat) (steps : List Step)
    (h : ∀ s ∈ steps, isExecCall s = false) :
    ∀ s ∈ steps.take n, isExecCall s = false :=
  fun s hsm => h s (List.mem_of_mem_take hsm)

theorem runChangeSet_check (env : ExecEnv) (cs : ChangeSet) (hs : Bool)
    (drive : Option Nat) (seen : List ChangeSet) (hmem : cs ∈ seen) :
    plan_before_execute_check seen (runChangeSet env cs hs drive).1 = true := by
  cases drive with
  | none => rfl
  | some n =>
    show plan_before_execute_check seen ((execute env cs hs).1.take n) = true
    rcases cs with ⟨eff, sn, csid, rc⟩
    cases eff with
    | skip =>
      refine plan_check_of_no_exec _ seen (take_no_exec n _ ?_)
      intro s hsm
      simp only [execute] at hsm
      rcases List.mem_cons.mp hsm with rfl | hsm
      · rfl
      · cases hle : last_stack_event env.last_event_response with
        | none => rw [hle] at hsm; cases hsm
        | some e =>
          rw [hle] at hsm
          rcases List.mem_cons.mp hsm with rfl | hsm
          · rfl
          · cases hsm
    | create id =>
      obtain ⟨tail, htail, hnoexec⟩ := execRun_steps env
        ⟨.create id, sn, csid, rc⟩ (.call (.executeChangeSet id)) hs
      show plan_before_execute_check seen
        ((execute.execRun env ⟨.create id, sn, csid, rc⟩
          (.call (.executeChangeSet id)) hs).1.take n) = true
      rw [htail]
      cases n with
      | zero => rfl
      | succ m =>
        rw [List.take_succ_cons]
        have hm : matchesExec seen (.executeChangeSet id) = true := by
          simp only [matchesExec, List.any_eq_true]
          exact ⟨_, hmem, by simp⟩
        simp only [plan_before_execute_check, hm, Bool.true_and]
        exact plan_check_of_no_exec _ seen (take_no_exec m tail hnoexec)
    | update id =>
      obtain ⟨tail, htail, hnoexec⟩ := execRun_steps env
        ⟨.update id, sn, csid, rc⟩ (.call (.executeChangeSet id)) hs
      show plan_before_execute_check seen
        ((execute.execRun env ⟨.update id, sn, csid, rc⟩
          (.call (.executeChangeSet id)) hs).1.take n) = true
      rw [htail]
      cases n with
      | zero => rfl
      | succ m =>
        rw [List.take_succ_cons]
        have hm : matchesExec seen (.executeChangeSet id) = true := by
          simp only [matchesExec, List.any_eq_true]
          exact ⟨_, hmem, by simp⟩
        simp only [plan_before_execute_check, hm, Bool.true_and]
        exact plan_check_of_no_exec _ seen (take_no_exec m tail hnoexec)
    | delete =>
      obtain ⟨tail, htail, hnoexec⟩ := execRun_steps env
        ⟨.delete, sn, csid, rc⟩ (.call (.deleteStack csid)) hs
      show plan_before_execute_check seen
        ((execute.execRun env ⟨.delete, sn, csid, rc⟩
          (.call (.deleteStack csid)) hs).1.take n) = true
      rw [htail]
      cases n with
      | zero => rfl
      | succ m =>
        rw [List.take_succ_cons]
        have hm : matchesExec seen (.deleteStack csid) = true := by
          simp only [matchesExec, List.any_eq_true]
          exact ⟨_, hmem, by simp⟩
        simp only [plan_before_execute_check, hm, Bool.true_and]
        exact plan_check_of_no_exec _ seen (take_no_exec m tail hnoexec)

theorem runCreatePath_check (input : DeployInput) (outcome : ChangeSetOutcome)
    (exec_env : ExecEnv) (ty : ChangeSetType) (drive : Option Nat)
    (seen : List ChangeSet) :
    plan_before_execute_check seen
      (runCreatePath input outcome exec_env ty drive) = true := by
  rw [runCreatePath.eq_def]
  cases hccs : create_change_set input.stack_name outcome ty with
  | error e => rfl
  | ok cs =>
    show plan_before_execute_check seen
      ([Step.call (.createChangeSet ty input.stack_name),
        Step.call (.describeChangeSet outcome.change_set_id)] ++
        Step.yieldChangeSet cs :: (runChangeSet exec_env cs false drive).1)
      = true
    show plan_before_execute_check (cs :: seen)
      (runChangeSet exec_env cs false drive).1 = true
    exact runChangeSet_check exec_env cs false drive (cs :: seen)
      (List.mem_cons_self _ _)

/-- C5: in every deployment trace, a mutating call (`ExecuteChangeSet` or
`DeleteStack`) only ever occurs after the yield of a matching change set
(Create/Update with that change-set id, or Delete for that stack id), and only
when the consumer drives the yielded change set. -/
theorem deploy_plan_before_execute (input : DeployInput) (env : DeployEnv)
    (drive1 drive2 : Option Nat) :
    plan_before_execute_check [] (deploy input env drive1 drive2) = true := by
  rw [deploy.eq_def]
  cases hres : StackStatus.try_from_result env.describe_stacks with
  | error e => rfl
  | ok st =>
    cases st with
    | notFound =>
      show plan_before_execute_check []
        (runCreatePath input env.create_outcome env.create_exec .createType
          drive1) = true
      exact runCreatePath_check input env.create_outcome env.create_exec
        .createType drive1 []
    | existsOk =>
      show plan_before_execute_check []
        (runCreatePath input env.update_outcome env.update_exec .updateType
          drive1) = true
      exact runCreatePath_check input env.update_outcome env.update_exec
        .updateType drive1 []
    | existsErr sid =>
      show plan_before_execute_check
        [for_delete env.delete_resources sid input.stack_name]
        ((runChangeSet env.delete_exec
            (for_delete env.delete_resources sid input.stack_name) true
            drive1).1 ++
          (if (runChangeSet env.delete_exec
              (for_delete env.delete_resources sid input.stack_name) true
              drive1).2 then
            runCreatePath input env.create_outcome env.create_exec .createType
              drive2
          else [])) = true
      rw [plan_check_append, Bool.and_eq_true]
      refine ⟨runChangeSet_check env.delete_exec _ true drive1 _
        (List.mem_cons_self _ _), ?_⟩
      by_cases hc : (runChangeSet env.delete_exec
          (for_delete env.delete_resources sid input.stack_name) true
          drive1).2
      · rw [if_pos hc]
        exact runCreatePath_check input env.create_outcome env.create_exec
          .createType drive2 _
      · rw [if_neg hc]
        rfl

/-! Deploy action selection (C1). -/

/-- C1 counterexample: with the stack in ROLLBACK_COMPLETE, deploy does not
return a blocked status to the caller — no such value exists — it classifies
the stack as ExistsErr and proceeds on its own with delete-then-create
recovery: a Delete change set is yielded and executed and a Create change set
follows.  Moreover CREATE_FAILED is classified ExistsOk, so it takes the
update path instead of being treated as blocked. -/
theorem deploy_rollback_complete_not_blocked :
    StackStatus.try_from_result (.ok "ROLLBACK_COMPLETE" "stack-id") =
      .ok (.existsErr "stack-id") ∧
    (yieldedChangeSets
        (deploy inputFix envRollbackComplete (some 100) (some 100))).map
        (fun cs => cs.effect) = [Effect.delete, Effect.create "cs-1"] ∧
    Step.call (.deleteStack "stack-id") ∈
      deploy inputFix envRollbackComplete (some 100) (some 100) ∧
    Step.call (.executeChangeSet "cs-1") ∈
      deploy inputFix envRollbackComplete (some 100) (some 100) ∧
    StackStatus.try_from_result (.ok "CREATE_FAILED" "stack-id") =
      .ok .existsOk := by
  decide

/-- C1 (amended): the action is selected from the initial `DescribeStacks`
result as follows — a 400 error response or an existing stack in
REVIEW_IN_PROGRESS selects the create path (a CREATE-type change set is
built); DELETE_FAILED, ROLLBACK_FAILED and ROLLBACK_COMPLETE are classified
ExistsErr, upon which deploy itself yields a synthesised delete change set
followed (only once it completes) by the create path, rather than returning a
blocked status; every other existing status (including CREATE_FAILED) selects
the update path (an UPDATE-type change set). -/
theorem deploy_action_selection (input : DeployInput) (env : DeployEnv)
    (drive1 drive2 : Option Nat) (status sid : String) :
    StackStatus.try_from_result .err400 = .ok .notFound ∧
    StackStatus.try_from_result (.ok "REVIEW_IN_PROGRESS" sid) =
      .ok .notFound ∧
    (status = "DELETE_FAILED" ∨ status = "ROLLBACK_FAILED" ∨
        status = "ROLLBACK_COMPLETE" →
      StackStatus.try_from_result (.ok status sid) = .ok (.existsErr sid)) ∧
    (status ≠ "REVIEW_IN_PROGRESS" → status ≠ "DELETE_FAILED" →
      status ≠ "ROLLBACK_FAILED" → status ≠ "ROLLBACK_COMPLETE" →
      StackStatus.try_from_result (.ok status sid) = .ok .existsOk) ∧
    (StackStatus.try_from_result env.describe_stacks = .ok .notFound →
      deploy input env drive1 drive2 =
        Step.call (.describeStacks input.stack_name) ::
          runCreatePath input env.create_outcome env.create_exec .createType
            drive1) ∧
    (StackStatus.try_from_result env.describe_stacks = .ok .existsOk →
      deploy input env drive1 drive2 =
        Step.call (.describeStacks input.stack_name) ::
          runCreatePath input env.update_outcome env.update_exec .updateType
            drive1) ∧
    (StackStatus.try_from_result env.describe_stacks = .ok (.existsErr sid) →
      deploy input env drive1 drive2 =
        Step.call (.describeStacks input.stack_name) ::
          Step.call (.describeStackResources sid) ::
          Step.yieldChangeSet
            (for_delete env.delete_resources sid input.stack_name) ::
          (runChangeSet env.delete_exec
            (for_delete env.delete_resources sid input.stack_name) true
            drive1).1 ++
          (if (runChangeSet env.delete_exec
              (for_delete env.delete_resources sid input.stack_name) true
              drive1).2 then
            runCreatePath input env.create_outcome env.create_exec .createType
              drive2
          else [])) := by
  refine ⟨rfl, rfl, ?_, ?_, ?_, ?_, ?_⟩
  · intro h
    rcases h with rfl | rfl | rfl <;> rfl
  · intro h1 h2 h3 h4
    show (if status = "REVIEW_IN_PROGRESS" then Except.ok StackStatus.notFound
      else if status = "DELETE_FAILED" ∨ status = "ROLLBACK_FAILED"
          ∨ status = "ROLLBACK_COMPLETE" then
        Except.ok (StackStatus.existsErr sid)
      else Except.ok StackStatus.existsOk) = Except.ok StackStatus.existsOk
    rw [if_neg h1, if_neg]
    intro hc
    rcases hc with hc | hc | hc
    · exact h2 hc
    · exact h3 hc
    · exact h4 hc
  · intro h
    rw [deploy.eq_def, h]
  · intro h
    rw [deploy.eq_def, h]
  · intro h
    rw [deploy.eq_def, h]
    rfl

theorem deploy_action_selection_witness :
    StackStatus.try_from_result (.ok "CREATE_COMPLETE" "stack-id") =
      .ok .existsOk :=
  (deploy_action_selection inputFix envRollbackComplete none none
      "CREATE_COMPLETE" "stack-id").2.2.2.1
    (by decide) (by decide) (by decide) (by decide)

/-! Delete-then-create gating (C10). -/

theorem execRun_send_position (env : ExecEnv) (cs : ChangeSet) (first : Step)
    (hfirst : first ≠ Step.sendComplete) :
    ((execute.execRun env cs first true).2 = .ok () →
      (execute.execRun env cs first true).1 =
        ((execute.execRun env cs first true).1).dropLast ++
          [Step.sendComplete] ∧
      Step.sendComplete ∉
        ((execute.execRun env cs first true).1).dropLast) ∧
    (∀ err, (execute.execRun env cs first true).2 = .error err →
      Step.sendComplete ∉ (execute.execRun env cs first true).1) := by
  rw [execute.execRun]
  cases herr : (accumErrors cs.stack_id
      (yieldedEvents (streamPolls cs.stack_id env.now env.poll_responses))).1 with
  | some e =>
    constructor
    · intro hc; cases hc
    · intro err _ hmem
      rcases List.mem_cons.mp hmem with hc | hmem
      · exact hfirst hc.symm
      · exact streamPolls_no_send cs.stack_id env.poll_responses env.now hmem
  | none =>
    constructor
    · intro _
      have hshape : (first :: streamPolls cs.stack_id env.now
            env.poll_responses ++
            (if true then [Step.sendComplete] else []) : List Step) =
          (first :: streamPolls cs.stack_id env.now env.poll_responses) ++
            [Step.sendComplete] := by
        simp
      constructor
      · show (first :: streamPolls cs.stack_id env.now env.poll_responses ++
            (if true then [Step.sendComplete] else []) : List Step) = _
        rw [hshape, List.dropLast_concat]
      · show Step.sendComplete ∉
          ((first :: streamPolls cs.stack_id env.now env.poll_responses ++
            (if true then [Step.sendComplete] else []) : List Step)).dropLast
        rw [hshape, List.dropLast_concat]
        intro hmem
        rcases List.mem_cons.mp hmem with hc | hmem
        · exact hfirst hc.symm
        · exact streamPolls_no_send cs.stack_id env.poll_responses env.now hmem
    · intro err hc; cases hc

theorem take_any_send (pre : List Step) (n : Nat)
    (hpre : Step.sendComplete ∉ pre) :
    (((pre ++ [Step.sendComplete]).take n).any
        fun s => decide (s = Step.sendComplete)) = true ↔
      (pre ++ [Step.sendComplete]).length ≤ n := by
  constructor
  · intro hany
    obtain ⟨s, hsm, hdec⟩ := List.any_eq_true.mp hany
    obtain rfl := of_decide_eq_true hdec
    by_contra hlt
    have hn : n ≤ pre.length := by
      simp only [List.length_append, List.length_cons, List.length_nil] at hlt
      omega
    rw [List.take_append_eq_append_take] at hsm
    have h0 : n - pre.length = 0 := by omega
    rw [h0] at hsm
    simp only [List.take_zero, List.append_nil] at hsm
    exact hpre (List.mem_of_mem_take hsm)
  · intro hle
    rw [List.take_of_length_le hle]
    refine List.any_eq_true.mpr ⟨Step.sendComplete, ?_, by decide⟩
    exact List.mem_append_right _ (List.mem_cons_self _ _)

theorem take_any_send_none (steps : List Step) (n : Nat)
    (hns : Step.sendComplete ∉ steps) :
    ((steps.take n).any fun s => decide (s = Step.sendComplete)) = false := by
  by_contra hc
  rw [Bool.not_eq_false, List.any_eq_true] at hc
  obtain ⟨s, hsm, hdec⟩ := hc
  obtain rfl := of_decide_eq_true hdec
  exact hns (List.mem_of_mem_take hsm)

/-- C10: on the ExistsErr path, the follow-up create change set is produced
only after the delete change set's execution stream has run to completion
without a stack error event: the completion signal is the very last step of a
successful delete stream and is absent from a failed one; the consumer's
completion flag is set iff the stream succeeded and was driven to its full
length; when the consumer abandons the delete change set, deploy ends after
yielding it and the create path is never built or yielded. -/
theorem deploy_delete_then_create_gating (input : DeployInput)
    (env : DeployEnv) (drive1 drive2 : Option Nat) (sid : String)
    (h : StackStatus.try_from_result env.describe_stacks =
      .ok (.existsErr sid)) :
    ((execute env.delete_exec
        (for_delete env.delete_resources sid input.stack_name) true).2 =
          .ok () →
      (execute env.delete_exec
          (for_delete env.delete_resources sid input.stack_name) true).1 =
        ((execute env.delete_exec
          (for_delete env.delete_resources sid input.stack_name)
          true).1).dropLast ++ [Step.sendComplete] ∧
      Step.sendComplete ∉
        ((execute env.delete_exec
          (for_delete env.delete_resources sid input.stack_name)
          true).1).dropLast) ∧
    (∀ err, (execute env.delete_exec
        (for_delete env.delete_resources sid input.stack_name) true).2 =
          .error err →
      Step.sendComplete ∉
        (execute env.delete_exec
          (for_delete env.delete_resources sid input.stack_name) true).1) ∧
    (∀ n, drive1 = some n →
      ((runChangeSet env.delete_exec
          (for_delete env.delete_resources sid input.stack_name) true
          drive1).2 = true ↔
        ((execute env.delete_exec
            (for_delete env.delete_resources sid input.stack_name) true).2 =
          .ok () ∧
        ((execute env.delete_exec
            (for_delete env.delete_resources sid input.stack_name)
            true).1).length ≤ n))) ∧
    (drive1 = none →
      deploy input env drive1 drive2 =
        [Step.call (.describeStacks input.stack_name),
         Step.call (.describeStackResources sid),
         Step.yieldChangeSet
           (for_delete env.delete_resources sid input.stack_name)]) ∧
    (deploy input env drive1 drive2 =
      Step.call (.describeStacks input.stack_name) ::
        Step.call (.describeStackResources sid) ::
        Step.yieldChangeSet
          (for_delete env.delete_resources sid input.stack_name) ::
        (runChangeSet env.delete_exec
          (for_delete env.delete_resources sid input.stack_name) true
          drive1).1 ++
        (if (runChangeSet env.delete_exec
            (for_delete env.delete_resources sid input.stack_name) true
            drive1).2 then
          runCreatePath input env.create_outcome env.create_exec .createType
            drive2
        else [])) := by
  have hpos := execRun_send_position env.delete_exec
    (for_delete env.delete_resources sid input.stack_name)
    (.call (.deleteStack sid)) (fun hc => Step.noConfusion hc)
  have hexec : execute env.delete_exec
      (for_delete env.delete_resources sid input.stack_name) true =
      execute.execRun env.delete_exec
        (for_delete env.delete_resources sid input.stack_name)
        (.call (.deleteStack sid)) true := rfl
  rw [← hexec] at hpos
  refine ⟨?_, ?_, ?_, ?_, ?_⟩
  · exact hpos.1
  · exact hpos.2
  · intro n hd
    subst hd
    show (((execute env.delete_exec
        (for_delete env.delete_resources sid input.stack_name) true).1.take
          n).any fun s => decide (s = Step.sendComplete)) = true ↔ _
    cases hres : (execute env.delete_exec
        (for_delete env.delete_resources sid input.stack_name) true).2 with
    | ok u =>
      obtain ⟨hsplit, hnotin⟩ := hpos.1 (by rw [hres])
      constructor
      · intro hany
        rw [hsplit] at hany
        have := (take_any_send _ n hnotin).mp hany
        rw [← hsplit] at this
        exact ⟨rfl, this⟩
      · intro ⟨_, hlen⟩
        rw [hsplit]
        refine (take_any_send _ n hnotin).mpr ?_
        rw [← hsplit]
        exact hlen
    | error err =>
      have hns := hpos.2 err hres
      rw [take_any_send_none _ n hns]
      constructor
      · intro hc; cases hc
      · intro ⟨hc, _⟩
        cases hc
  · intro hd
    subst hd
    rw [deploy.eq_def, h]
    rfl
  · rw [deploy.eq_def, h]
    rfl

theorem deploy_delete_then_create_gating_witness :
    deploy inputFix envRollbackComplete none none =
      [Step.call (.describeStacks "my-stack"),
       Step.call (.describeStackResources "stack-id"),
       Step.yieldChangeSet
         (for_delete envRollbackComplete.delete_resources "stack-id"
           "my-stack")] :=
  (deploy_delete_then_create_gating inputFix envRollbackComplete none none
    "stack-id" (by decide)).2.2.2.1 rfl

end CfnDeploy
